import Mathlib

/-
  Formal model of the Link2Gether watch-party client.

  The definitions below are shallow embeddings of the JavaScript source:
  - `src/components/achievementManager.js` (achievement catalog, stat
    tracking, watch-session accrual),
  - `src/utils/validation.js` (URL validation, localStorage wrappers,
    numeric clamping; shipped as `src/unnamed/part_000`),
  - the application shell `src/unnamed/part_001` (constants, queue and
    playback controller, player-bridge message handler, Discord connect).

  Machine numbers are modelled as `Nat`/`Int`/`Rat`; stateful React hooks
  become explicit state passing (each `setX` call updates the state that
  subsequent reads observe, matching the single-writer discipline of the
  event loop); the 1-second interval and inbound events become explicit
  transition functions parameterised by the current epoch-millisecond time.
-/

/-! ## Stat mapping (achievementManager.js, `useState` initialiser lines 96-103) -/

/-- The record of named counters driving achievement evaluation.
All counters are non-negative integers (seconds for `watch_time`). -/
structure Stats where
  discord_connections : Nat
  videos_added : Nat
  messages_sent : Nat
  watch_time : Nat
  max_queue_size : Nat
  sessions_played : Nat
  deriving DecidableEq, Repr

/-- The all-zero initial stat mapping. -/
def zeroStats : Stats :=
  { discord_connections := 0, videos_added := 0, messages_sent := 0,
    watch_time := 0, max_queue_size := 0, sessions_played := 0 }

/-! ## Achievement catalog (achievementManager.js lines 7-88) -/

/-- The closed set of achievement condition kinds (the `type` strings of
`ACHIEVEMENT_DEFINITIONS`). -/
inductive AchType where
  | discord_connection
  | videos_added
  | messages_sent
  | watch_time
  | max_queue_size
  deriving DecidableEq, Repr

/-- One achievement definition.  The display-only `description` and `icon`
fields are omitted; `id`, `name`, `type` and `target` are kept verbatim. -/
structure Achievement where
  id : Nat
  name : String
  type : AchType
  target : Nat
  deriving DecidableEq, Repr

/-- `ACHIEVEMENT_DEFINITIONS` from achievementManager.js lines 7-88. -/
def ACHIEVEMENT_DEFINITIONS : List Achievement :=
  [ { id := 1, name := "First Connection", type := AchType.discord_connection, target := 1 },
    { id := 2, name := "Video Master", type := AchType.videos_added, target := 10 },
    { id := 3, name := "Chat Champion", type := AchType.messages_sent, target := 50 },
    { id := 4, name := "Just Warming Up", type := AchType.watch_time, target := 3600 },
    { id := 5, name := "Queue Master", type := AchType.max_queue_size, target := 5 },
    { id := 6, name := "Channel Surfer Pro", type := AchType.watch_time, target := 36000 },
    { id := 7, name := "The Algorithmic Abyss Diver", type := AchType.watch_time, target := 180000 },
    { id := 8, name := "Pixelated Pupil", type := AchType.watch_time, target := 540000 },
    { id := 9, name := "YouTube Grandmaster (and Potential Hermit)", type := AchType.watch_time, target := 1800000 },
    { id := 10, name := "Time to go Outside", type := AchType.watch_time, target := 3600000 } ]

/-- The `switch (achievement.type)` of `checkAchievements` (lines 160-179):
selects the counter compared against the target.  The JavaScript
`(currentStats.x || 0)` guards are identity on the always-present `Nat`
fields of `Stats`. -/
def statValue (s : Stats) : AchType → Nat
  | AchType.discord_connection => s.discord_connections
  | AchType.videos_added => s.videos_added
  | AchType.messages_sent => s.messages_sent
  | AchType.watch_time => s.watch_time
  | AchType.max_queue_size => s.max_queue_size

/-- The unlock condition computed for one definition:
`shouldUnlock = currentValue >= achievement.target`. -/
def shouldUnlock (s : Stats) (a : Achievement) : Prop :=
  a.target ≤ statValue s a.type

instance (s : Stats) (a : Achievement) : Decidable (shouldUnlock s a) := by
  unfold shouldUnlock; infer_instance

/-- One iteration of the `ACHIEVEMENT_DEFINITIONS.forEach` body of
`checkAchievements` (lines 156-189): skip ids already present, add the id
when the unlock condition holds.  The JavaScript `Set` keeps insertion
order and has no duplicates, so it is modelled as a duplicate-free
`List Nat` and `newUnlocked.add(id)` as an append-if-absent. -/
def checkStep (s : Stats) (acc : List Nat) (a : Achievement) : List Nat :=
  if a.id ∉ acc ∧ shouldUnlock s a then acc ++ [a.id] else acc

/-- `checkAchievements` (achievementManager.js lines 152-194): starting from
the current unlocked set, walk the catalog and add every id whose target is
now met.  (The `hasNewAchievements`/persistence bookkeeping does not change
the resulting set and is modelled by the persistence layer separately.) -/
def checkAchievements (currentStats : Stats) (unlocked : List Nat) : List Nat :=
  ACHIEVEMENT_DEFINITIONS.foldl (checkStep currentStats) unlocked

/-- Coordinate-wise domination of one stat mapping over another. -/
def Dominates (s s' : Stats) : Prop :=
  s'.discord_connections ≤ s.discord_connections ∧
  s'.videos_added ≤ s.videos_added ∧
  s'.messages_sent ≤ s.messages_sent ∧
  s'.watch_time ≤ s.watch_time ∧
  s'.max_queue_size ≤ s.max_queue_size ∧
  s'.sessions_played ≤ s.sessions_played

instance (s s' : Stats) : Decidable (Dominates s s') := by
  unfold Dominates; infer_instance

/-! ## Persistence layer (validation.js lines 66-148) -/

/-- A JSON document, as produced by `JSON.parse` on well-formed input
(numbers restricted to the integers the stored stats use). -/
inductive JsonValue where
  | null
  | bool (b : Bool)
  | num (n : Int)
  | str (s : String)
  | arr (items : List JsonValue)
  | obj (fields : List (String × JsonValue))
  deriving Repr

/-- The browser `localStorage`: a key-value store of serialized strings.
`JSON.stringify` and `JSON.parse` are inverse on JSON documents, so a stored
string is modelled by the `JsonValue` it denotes. -/
def Storage := String → Option JsonValue

/-- A store with no keys set. -/
def emptyStorage : Storage := fun _ => none

/-- `safeLocalStorageSet` (validation.js lines 140-148): `JSON.stringify`
the value and write it under the key.  (The model assumes `window` is
present and the write succeeds; on failure the source logs and leaves the
store unchanged, which callers must tolerate.) -/
def safeLocalStorageSet (key : String) (value : JsonValue) (st : Storage) : Storage :=
  fun k => if k = key then some value else st k

/-- `safeLocalStorageGet` (validation.js lines 118-133): read the item; when
absent return the default; otherwise `JSON.parse` it (the stored document)
and return the default when the validator rejects it.  A `null` validator in
the source is the constant-true validator here. -/
def safeLocalStorageGet (key : String) (defaultValue : JsonValue)
    (validator : JsonValue → Bool) (st : Storage) : JsonValue :=
  match st key with
  | none => defaultValue
  | some parsed => if validator parsed then parsed else defaultValue

/-! ## Input validation utilities (validation.js) -/

/-- `VALIDATION.MAX_MESSAGE_LENGTH` (constants.js line 44). -/
def MAX_MESSAGE_LENGTH : Nat := 500

/-- `sanitizeString` (validation.js lines 11-14): trim whitespace from both
ends (`String.prototype.trim`) and truncate to `maxLength` characters
(`substring(0, maxLength)`). -/
def sanitizeString (input : String) (maxLength : Nat) : String :=
  String.mk (((input.data.dropWhile Char.isWhitespace).reverse.dropWhile
    Char.isWhitespace).reverse.take maxLength)

/-- The character class `[0-9A-Za-z_-]` of `VALIDATION.YOUTUBE_URL_PATTERN`
(constants.js line 46). -/
def isIdChar (c : Char) : Bool :=
  c.isAlphanum || c = '_' || c = '-'

/-- The `([0-9A-Za-z_-]){11}` capture group: succeeds when the next eleven
characters are id characters (the trailing `.*` always matches). -/
def idMatch (cs : List Char) : Option String :=
  if (cs.take 11).length = 11 ∧ (cs.take 11).all isIdChar then
    some (String.mk (cs.take 11))
  else none

/-- One attempt of `YOUTUBE_URL_PATTERN` at the current position: the
alternation `(?:v=|\/)` followed by the eleven-character capture. -/
def ytMatchHere : List Char → Option String
  | 'v' :: '=' :: rest => idMatch rest
  | '/' :: rest => idMatch rest
  | _ => none

/-- Left-to-right scan for the first position where the pattern matches,
as `String.prototype.match` does for an unanchored regex. -/
def ytScan : List Char → Option String
  | [] => none
  | c :: rest =>
      match ytMatchHere (c :: rest) with
      | some vid => some vid
      | none => ytScan rest

/-- `getYoutubeVideoId` (validation.js lines 21-26): the first capture of
`YOUTUBE_URL_PATTERN`, or `none` when the URL does not match. -/
def getYoutubeVideoId (url : String) : Option String :=
  ytScan url.data

/-- `isValidYoutubeUrl` (validation.js lines 33-35). -/
def isValidYoutubeUrl (url : String) : Bool :=
  (getYoutubeVideoId url).isSome

/-- `YOUTUBE_CONFIG.ALLOWED_ORIGINS` (constants.js line 27). -/
def ALLOWED_ORIGINS : List String :=
  ["https://www.youtube.com", "https://youtube.com"]

/-- `isValidYoutubeOrigin` (validation.js lines 107-109). -/
def isValidYoutubeOrigin (origin : String) : Bool :=
  ALLOWED_ORIGINS.contains origin

/-- Digit-string to number, most significant first. -/
def digitsToNat (cs : List Char) : Nat :=
  cs.foldl (fun acc c => acc * 10 + (c.toNat - Char.toNat '0')) 0

/-- The body of `parseFloat` after the optional sign: an integer part `ip`,
an optional fractional part `fp`, and anything after (ignored).  `NaN`
(`none`) when neither part has a digit; otherwise the rational
`sign * (ip + fp / 10 ^ |fp|)`, built as one `mkRat`.  (Exponent notation,
accepted by the host `parseFloat`, is not used by any caller and is
omitted.) -/
def jsParseFloatCore (sgn : Int) (cs : List Char) : Option Rat :=
  let ip := cs.takeWhile Char.isDigit
  let rest := cs.dropWhile Char.isDigit
  let fp := match rest with
    | '.' :: r2 => r2.takeWhile Char.isDigit
    | _ => []
  if ip.isEmpty ∧ fp.isEmpty then none
  else some (mkRat (sgn * (digitsToNat ip * 10 ^ fp.length + digitsToNat fp)) (10 ^ fp.length))

/-- The host `parseFloat`: skip leading whitespace, optional sign, decimal
digits; trailing garbage is ignored. -/
def jsParseFloat (s : String) : Option Rat :=
  match s.data.dropWhile Char.isWhitespace with
  | '-' :: rest => jsParseFloatCore (-1) rest
  | '+' :: rest => jsParseFloatCore 1 rest
  | cs => jsParseFloatCore 1 cs

/-- `Math.min` on (non-`NaN`) numbers. -/
def jsMin (a b : Rat) : Rat := if a ≤ b then a else b

/-- `Math.max` on (non-`NaN`) numbers. -/
def jsMax (a b : Rat) : Rat := if a ≤ b then b else a

/-- `validateNumber` (validation.js lines 157-161): `parseFloat` the raw
value; `NaN` yields the configured minimum `lo`, anything else is clamped by
`Math.max(lo, Math.min(hi, num))`. -/
def validateNumber (value : String) (lo hi : Rat) : Rat :=
  match jsParseFloat value with
  | none => lo
  | some num => jsMax lo (jsMin hi num)

/-! ## Stat trackers and the watch-session state machine
    (achievementManager.js lines 196-296) -/

/-- `trackDiscordConnection` (lines 197-203). -/
def trackDiscordConnection (stats : Stats) : Stats :=
  { stats with discord_connections := stats.discord_connections + 1 }

/-- `trackVideoAdded` (lines 206-212). -/
def trackVideoAdded (stats : Stats) : Stats :=
  { stats with videos_added := stats.videos_added + 1 }

/-- `trackMessageSent` (lines 215-221). -/
def trackMessageSent (stats : Stats) : Stats :=
  { stats with messages_sent := stats.messages_sent + 1 }

/-- `trackQueueSize` (lines 224-232): high-water mark of the queue length. -/
def trackQueueSize (currentQueueSize : Nat) (stats : Stats) : Stats :=
  if currentQueueSize > stats.max_queue_size then
    { stats with max_queue_size := currentQueueSize }
  else stats

/-- The achievement hook's mutable state: the stat mapping and the open
watch session's start timestamp (epoch milliseconds), `none` when idle.
(Each `saveStats`/`safeLocalStorageSet` mirrors this state into storage;
the mirroring is modelled by the persistence layer separately.) -/
structure AchState where
  stats : Stats
  watchSessionStart : Option Nat
  deriving Repr

/-- JavaScript truthiness of the `watchSessionStart` value: `null` and `0`
are both falsy. -/
def truthyTime : Option Nat → Bool
  | none => false
  | some n => n ≠ 0

/-- `startWatchSession` (lines 235-242): only starts if no session is active
(`if (!watchSessionStart)`); records `Date.now()`. -/
def startWatchSession (now : Nat) (s : AchState) : AchState :=
  if truthyTime s.watchSessionStart then s
  else { s with watchSessionStart := some now }

/-- One firing of the 1-second interval (lines 245-263): while a session is
active, if the wall-clock session duration `floor((now - start)/1000)` is
positive, increment `watch_time` by exactly 1.  (In JavaScript a negative
difference also fails the `> 0` guard, matching truncated `Nat`
subtraction.) -/
def tickStep (now : Nat) (s : AchState) : AchState :=
  if truthyTime s.watchSessionStart then
    let start := s.watchSessionStart.getD 0
    if (now - start) / 1000 > 0 then
      { s with stats := { s.stats with watch_time := s.stats.watch_time + 1 } }
    else s
  else s

/-- `endWatchSession` (lines 266-296): if a session is active, increment
`sessions_played` by 1 when the session duration is positive — explicitly
NOT re-adding the duration to `watch_time` — and clear the session marker;
otherwise do nothing. -/
def endWatchSession (now : Nat) (s : AchState) : AchState :=
  if truthyTime s.watchSessionStart then
    let start := s.watchSessionStart.getD 0
    let stats1 :=
      if (now - start) / 1000 > 0 then
        { s.stats with sessions_played := s.stats.sessions_played + 1 }
      else s.stats
    { stats := stats1, watchSessionStart := none }
  else s

/-! ## Discord connect (part_001 lines 144-178 and 429-436) -/

/-- `handleDiscordConnect` (part_001 lines 429-436): builds the OAuth URL
and calls `trackDiscordConnection()` unconditionally BEFORE
`window.location.href` navigates away; only the stat effect is modelled. -/
def handleDiscordConnect (stats : Stats) : Stats :=
  trackDiscordConnection stats

/-- The stats outcome of the post-OAuth-redirect mount (part_001 lines
127-178 together with the achievement hook).  The app mounts fresh:
`useAchievements` starts from the all-zero stats and its load effect only
QUEUES `setStats(savedStats)`; the URL-parameter effect then calls the
`trackDiscordConnection` created in that same initial render, whose `stats`
closure is still the all-zero record.  So when the `username`, `avatar` and
`userId` query parameters are all present (truthy — `none` models an absent
or empty parameter) it computes and persists
`{...zeroStats, discord_connections := 1}`, clobbering both the queued load
and the previously stored value; otherwise the loaded stats stand. -/
def urlParamsMountStats (stored : Stats) (username avatar userId : Option String) : Stats :=
  if username.isSome ∧ avatar.isSome ∧ userId.isSome then
    trackDiscordConnection zeroStats
  else stored

/-! ## Queue & playback controller (part_001, the App component) -/

/-- The controller state: the video queue and current position, the playing
flag, the currently loaded URL, the inline URL validation error, the URL
input field, and the stat mapping maintained through the achievement hook. -/
structure AppState where
  youtubeQueue : List String
  currentIndex : Int
  isYoutubePlaying : Bool
  youtubeUrl : String
  urlError : String
  youtubeInput : String
  stats : Stats
  deriving DecidableEq, Repr

/-- The initial controller state (`useState` initialisers, part_001 lines
70-85): empty queue, `currentIndex = -1`, not playing. -/
def initState : AppState :=
  { youtubeQueue := [], currentIndex := -1, isYoutubePlaying := false,
    youtubeUrl := "", urlError := "", youtubeInput := "", stats := zeroStats }

/-- An inbound `message` event's data as the handler sees it: not a string
at all, a string that fails `JSON.parse`, or a parsed object with optional
`event` and `info` fields. -/
inductive MsgData where
  | notString
  | unparseable
  | parsed (event : Option String) (info : Option Int)
  deriving DecidableEq, Repr

/-- `handleMessage` (part_001 lines 226-247): drop everything whose origin
fails the allow-list or whose data is not a string; parse the JSON; on an
`onStateChange` event with `info = 0` (ended), advance to the next queue
entry or stop playing at the end of the queue. -/
def handleMessage (origin : String) (d : MsgData) (s : AppState) : AppState :=
  if isValidYoutubeOrigin origin then
    match d with
    | MsgData.notString => s
    | MsgData.unparseable => s
    | MsgData.parsed event info =>
        if event = some "onStateChange" ∧ info = some 0 then
          if s.currentIndex + 1 < (s.youtubeQueue.length : Int) then
            { s with currentIndex := s.currentIndex + 1 }
          else
            { s with isYoutubePlaying := false }
        else s
  else s

/-- The play-from-queue effect (part_001 lines 189-198): when
`currentIndex` addresses a queue entry, load it and set playing; when the
queue is empty, clear the URL and stop. -/
def playQueueEffect (s : AppState) : AppState :=
  if 0 ≤ s.currentIndex ∧ s.currentIndex < (s.youtubeQueue.length : Int) then
    { s with youtubeUrl := s.youtubeQueue.getD s.currentIndex.toNat "",
             isYoutubePlaying := true }
  else if s.youtubeQueue.length = 0 then
    { s with youtubeUrl := "", isYoutubePlaying := false }
  else s

/-- Full reactive processing of one inbound player-bridge message:
`handleMessage`, then the play-from-queue effect, which React re-runs
exactly when its dependencies `[currentIndex, youtubeQueue]` changed. -/
def messageStep (origin : String) (d : MsgData) (s : AppState) : AppState :=
  let s1 := handleMessage origin d s
  if s1.currentIndex ≠ s.currentIndex ∨ s1.youtubeQueue ≠ s.youtubeQueue then
    playQueueEffect s1
  else s1

/-- The player's ended signal over the bridge: an `onStateChange` message
with `info = 0` from a trusted origin, with its reactive follow-up. -/
def endedSignal (s : AppState) : AppState :=
  messageStep "https://www.youtube.com" (MsgData.parsed (some "onStateChange") (some 0)) s

/-- `handleNext` (part_001 lines 374-382). -/
def handleNext (s : AppState) : AppState :=
  if s.currentIndex + 1 < (s.youtubeQueue.length : Int) then
    { s with currentIndex := s.currentIndex + 1, isYoutubePlaying := true }
  else
    { s with isYoutubePlaying := false }

/-- `handlePrevious` (part_001 lines 384-389). -/
def handlePrevious (s : AppState) : AppState :=
  if s.currentIndex > 0 then
    { s with currentIndex := s.currentIndex - 1, isYoutubePlaying := true }
  else s

/-- `Array.prototype.indexOf`: first index of `x`, `-1` when absent. -/
def jsIndexOf : List String → String → Int
  | [], _ => -1
  | a :: rest, x =>
      if a = x then 0
      else if jsIndexOf rest x = -1 then -1
      else jsIndexOf rest x + 1

/-- `playFromHistory` (part_001 lines 391-406): select the entry's index
when its locator is already queued, otherwise append it and select the new
last index; always resume playing.  (`item && item.src` makes an entry with
an empty locator a no-op.) -/
def playFromHistory (src : String) (s : AppState) : AppState :=
  if src = "" then s
  else
    let indexInQueue := jsIndexOf s.youtubeQueue src
    if indexInQueue ≠ -1 then
      { s with currentIndex := indexInQueue, isYoutubePlaying := true }
    else
      let newQueue := s.youtubeQueue ++ [src]
      { s with youtubeQueue := newQueue,
               currentIndex := (newQueue.length : Int) - 1,
               isYoutubePlaying := true }

/-- `addToQueue` (part_001 lines 307-329): a falsy (empty) URL returns
immediately; a sanitized URL failing validation only surfaces the inline
error; otherwise clear the error, append, track the video addition and the
new queue length, and — only when the queue was previously empty — select
index 0 and begin playing; finally clear the input field.

The two tracker calls share ONE stale `stats` snapshot: `trackVideoAdded()`
saves `{...stats, videos_added + 1}`, then `trackQueueSize(newQueue.length)`
— whose guard also reads the stale `stats.max_queue_size` — saves
`{...stats, max_queue_size := newQueue.length}` when the guard fires.  Both
saves are plain-value `setStats`, so the last write wins: whenever the new
queue length exceeds the previous high-water mark, the `videos_added`
increment is lost; only when the guard does not fire does it survive. -/
def addToQueue (url : String) (s : AppState) : AppState :=
  if url = "" then s
  else
    let sanitizedUrl := sanitizeString url MAX_MESSAGE_LENGTH
    if ¬ isValidYoutubeUrl sanitizedUrl then
      { s with urlError := "Please enter a valid YouTube URL." }
    else
      let newQueue := s.youtubeQueue ++ [sanitizedUrl]
      let statsAfter :=
        if newQueue.length > s.stats.max_queue_size then
          { s.stats with max_queue_size := newQueue.length }
        else
          trackVideoAdded s.stats
      if s.youtubeQueue.length = 0 ∧ newQueue.length > 0 then
        { s with youtubeQueue := newQueue, stats := statsAfter, urlError := "",
                 currentIndex := 0, isYoutubePlaying := true, youtubeInput := "" }
      else
        { s with youtubeQueue := newQueue, stats := statsAfter, urlError := "",
                 youtubeInput := "" }

/-- One inbound chat video-state update, the shape the chat collaborator
sends back (part_001 lines 752-770).  `none` models an absent (or, for
`videoUrl`, falsy) field. -/
structure VideoStateUpdate where
  videoUrl : Option String
  playbackState : Option String
  queue : Option (List String)
  index : Option Int
  deriving Repr

/-- `onVideoStateChange` (part_001 lines 752-770): replace the queue when a
non-empty array is supplied; apply the inbound index when it is a number
`≥ 0` different from the current one (the queue length is NOT consulted);
load a differing URL; map `play`/`pause`/`stop` onto the playing flag. -/
def onVideoStateChange (u : VideoStateUpdate) (s : AppState) : AppState :=
  let s1 := match u.queue with
    | some q => if q.length > 0 then { s with youtubeQueue := q } else s
    | none => s
  let s2 := match u.index with
    | some i => if 0 ≤ i ∧ i ≠ s.currentIndex then { s1 with currentIndex := i } else s1
    | none => s1
  let s3 := match u.videoUrl with
    | some v => if v ≠ s.youtubeUrl then { s2 with youtubeUrl := v } else s2
    | none => s2
  match u.playbackState with
  | some ps =>
      if ps = "play" then { s3 with isYoutubePlaying := true }
      else if ps = "pause" ∨ ps = "stop" then { s3 with isYoutubePlaying := false }
      else s3
  | none => s3

/-- The claimed data-model invariant: whenever something is selected, the
selection addresses a queue entry. -/
def IndexInvariant (s : AppState) : Prop :=
  0 ≤ s.currentIndex → s.currentIndex < (s.youtubeQueue.length : Int)

/-- States reachable from `initState` by the controller's operations.  The
chat-update step carries the in-bounds proviso on the applied update that
the amended C3 requires (the handler itself checks only `index ≥ 0`). -/
inductive Reach : AppState → Prop where
  | init : Reach initState
  | enqueue {s : AppState} (url : String) (hs : Reach s) : Reach (addToQueue url s)
  | advance {s : AppState} (hs : Reach s) : Reach (handleNext s)
  | retreat {s : AppState} (hs : Reach s) : Reach (handlePrevious s)
  | history {s : AppState} (src : String) (hs : Reach s) : Reach (playFromHistory src s)
  | player {s : AppState} (origin : String) (d : MsgData) (hs : Reach s) :
      Reach (messageStep origin d s)
  | chatUpdate {s : AppState} (u : VideoStateUpdate) (hs : Reach s)
      (hok : IndexInvariant (onVideoStateChange u s)) :
      Reach (onVideoStateChange u s)

/-! ## Helper lemmas -/

theorem Dominates.statValue_le {s s' : Stats} (h : Dominates s s') (t : AchType) :
    statValue s' t ≤ statValue s t := by
  obtain ⟨h1, h2, h3, h4, h5, h6⟩ := h
  cases t <;> simpa [statValue]

theorem shouldUnlock_mono {s s' : Stats} (h : Dominates s s') (a : Achievement)
    (h' : shouldUnlock s' a) : shouldUnlock s a :=
  le_trans h' (h.statValue_le a.type)

theorem checkStep_subset (s : Stats) (acc : List Nat) (a : Achievement) :
    ∀ x ∈ acc, x ∈ checkStep s acc a := by
  intro x hx
  unfold checkStep
  split
  · exact List.mem_append_left _ hx
  · exact hx

theorem foldl_checkStep_subset (s : Stats) :
    ∀ (l : List Achievement) (acc : List Nat) (x : Nat),
      x ∈ acc → x ∈ l.foldl (checkStep s) acc := by
  intro l
  induction l with
  | nil => intro acc x hx; exact hx
  | cons a t ih =>
      intro acc x hx
      exact ih (checkStep s acc a) x (checkStep_subset s acc a x hx)

theorem foldl_checkStep_mem (s : Stats) :
    ∀ (l : List Achievement) (acc : List Nat) (a : Achievement),
      a ∈ l → shouldUnlock s a → a.id ∈ l.foldl (checkStep s) acc := by
  intro l
  induction l with
  | nil => intro acc a ha; cases ha
  | cons b t ih =>
      intro acc a ha hu
      rcases List.mem_cons.mp ha with heq | hmem
      · subst heq
        have h1 : a.id ∈ checkStep s acc a := by
          unfold checkStep
          by_cases hin : a.id ∈ acc
          · simp [hin]
          · simp [hin, hu]
        exact foldl_checkStep_subset s t (checkStep s acc a) a.id h1
      · exact ih (checkStep s acc b) a hmem hu

theorem foldl_checkStep_fixed (s : Stats) :
    ∀ (l : List Achievement) (acc : List Nat),
      (∀ a ∈ l, shouldUnlock s a → a.id ∈ acc) → l.foldl (checkStep s) acc = acc := by
  intro l
  induction l with
  | nil => intro acc _; rfl
  | cons b t ih =>
      intro acc h
      have hstep : checkStep s acc b = acc := by
        unfold checkStep
        by_cases hu : shouldUnlock s b
        · have : b.id ∈ acc := h b (List.mem_cons_self b t) hu
          simp [this]
        · simp [hu]
      rw [List.foldl_cons, hstep]
      exact ih acc (fun a ha => h a (List.mem_cons_of_mem b ha))

theorem checkAchievements_foldl (s : Stats) (u : List Nat) :
    checkAchievements s u = ACHIEVEMENT_DEFINITIONS.foldl (checkStep s) u := rfl

theorem checkAchievements_idem (s : Stats) (u : List Nat) :
    checkAchievements s (checkAchievements s u) = checkAchievements s u := by
  have hmem : ∀ a ∈ ACHIEVEMENT_DEFINITIONS, shouldUnlock s a → a.id ∈ checkAchievements s u := by
    rw [checkAchievements_foldl]
    exact fun a ha hu => foldl_checkStep_mem s ACHIEVEMENT_DEFINITIONS u a ha hu
  have h2 := foldl_checkStep_fixed s ACHIEVEMENT_DEFINITIONS (checkAchievements s u) hmem
  rw [checkAchievements_foldl s (checkAchievements s u)]
  exact h2

theorem foldl_checkStep_mono {s s' : Stats} (hdom : Dominates s s') :
    ∀ (l : List Achievement) (acc' acc : List Nat),
      (∀ x ∈ acc', x ∈ acc) →
      ∀ x ∈ l.foldl (checkStep s') acc', x ∈ l.foldl (checkStep s) acc := by
  intro l
  induction l with
  | nil => intro acc' acc h; exact h
  | cons b t ih =>
      intro acc' acc h
      apply ih
      intro x hx
      unfold checkStep at hx
      by_cases hu' : b.id ∉ acc' ∧ shouldUnlock s' b
      · rw [if_pos hu'] at hx
        rcases List.mem_append.mp hx with hx1 | hx2
        · exact checkStep_subset s acc b x (h x hx1)
        · have hxb : x = b.id := List.mem_singleton.mp hx2
          rw [hxb]
          by_cases hin : b.id ∈ acc
          · exact checkStep_subset s acc b b.id hin
          · unfold checkStep
            rw [if_pos ⟨hin, shouldUnlock_mono hdom b hu'.2⟩]
            exact List.mem_append_right _ (List.mem_singleton.mpr rfl)
      · rw [if_neg hu'] at hx
        exact checkStep_subset s acc b x (h x hx)

theorem tickStep_active (now start : Nat) (s : AchState)
    (hss : s.watchSessionStart = some start) (hstart : start ≠ 0)
    (hnow : start + 1000 ≤ now) :
    tickStep now s =
      { s with stats := { s.stats with watch_time := s.stats.watch_time + 1 } } := by
  unfold tickStep
  rw [hss]
  have htr : truthyTime (some start) = true := by simp [truthyTime, hstart]
  rw [htr]
  have hdur : 0 < (now - start) / 1000 :=
    Nat.div_pos (by omega) (by norm_num)
  simp only [Option.getD_some, if_pos trivial]
  rw [if_pos hdur]

theorem tickFold (start : Nat) (hstart : start ≠ 0) :
    ∀ (ts : List Nat) (s : AchState), s.watchSessionStart = some start →
      (∀ t ∈ ts, start + 1000 ≤ t) →
      (ts.foldl (fun acc t => tickStep t acc) s).watchSessionStart = some start ∧
      (ts.foldl (fun acc t => tickStep t acc) s).stats.watch_time
        = s.stats.watch_time + ts.length ∧
      (ts.foldl (fun acc t => tickStep t acc) s).stats.sessions_played
        = s.stats.sessions_played := by
  intro ts
  induction ts with
  | nil => intro s hss _; exact ⟨hss, by simp, rfl⟩
  | cons t rest ih =>
      intro s hss hts
      have hstep := tickStep_active t start s hss hstart (hts t (List.mem_cons_self t rest))
      rw [List.foldl_cons, hstep]
      obtain ⟨h1, h2, h3⟩ := ih
        { s with stats := { s.stats with watch_time := s.stats.watch_time + 1 } }
        hss (fun t' ht' => hts t' (List.mem_cons_of_mem t ht'))
      refine ⟨h1, ?_, h3⟩
      rw [h2]
      simp
      omega

theorem jsIndexOf_bounds (x : String) :
    ∀ (l : List String), jsIndexOf l x = -1 ∨
      (0 ≤ jsIndexOf l x ∧ jsIndexOf l x < (l.length : Int)) := by
  intro l
  induction l with
  | nil => exact Or.inl rfl
  | cons a rest ih =>
      unfold jsIndexOf
      by_cases hax : a = x
      · right
        rw [if_pos hax]
        simp only [List.length_cons]
        omega
      · rw [if_neg hax]
        rcases ih with hneg | ⟨hlo, hhi⟩
        · left
          rw [if_pos hneg]
        · have hne : jsIndexOf rest x ≠ -1 := by omega
          right
          rw [if_neg hne]
          simp only [List.length_cons]
          omega

theorem addToQueue_inv (url : String) (s : AppState) (h : IndexInvariant s) :
    IndexInvariant (addToQueue url s) := by
  unfold addToQueue
  dsimp only
  split
  · exact h
  · split
    · exact h
    · split
      · intro _
        dsimp only
        simp only [List.length_append, List.length_cons, List.length_nil]
        omega
      · intro hge
        dsimp only at hge ⊢
        have := h hge
        simp only [List.length_append, List.length_cons, List.length_nil]
        omega

theorem handleMessage_inv (origin : String) (d : MsgData) (s : AppState)
    (h : IndexInvariant s) : IndexInvariant (handleMessage origin d s) := by
  unfold handleMessage
  split
  · match d with
    | MsgData.notString => exact h
    | MsgData.unparseable => exact h
    | MsgData.parsed event info =>
        dsimp only
        split
        · split
          · intro _
            dsimp only
            omega
          · intro hge
            dsimp only at hge ⊢
            exact h hge
        · exact h
  · exact h

theorem playQueueEffect_inv (s : AppState) (h : IndexInvariant s) :
    IndexInvariant (playQueueEffect s) := by
  unfold playQueueEffect
  split
  · intro hge
    dsimp only at hge ⊢
    have hcond : 0 ≤ s.currentIndex ∧ s.currentIndex < (s.youtubeQueue.length : Int) := by
      assumption
    exact hcond.2
  · split
    · intro hge
      dsimp only at hge ⊢
      exact h hge
    · exact h

theorem messageStep_inv (origin : String) (d : MsgData) (s : AppState)
    (h : IndexInvariant s) : IndexInvariant (messageStep origin d s) := by
  unfold messageStep
  dsimp only
  split
  · exact playQueueEffect_inv _ (handleMessage_inv origin d s h)
  · exact handleMessage_inv origin d s h

theorem handleNext_inv (s : AppState) (h : IndexInvariant s) :
    IndexInvariant (handleNext s) := by
  unfold handleNext
  split
  · intro _
    dsimp only
    omega
  · intro hge
    dsimp only at hge ⊢
    exact h hge

theorem handlePrevious_inv (s : AppState) (h : IndexInvariant s) :
    IndexInvariant (handlePrevious s) := by
  unfold handlePrevious
  split
  · intro _
    dsimp only
    have hgt : (0 : Int) < s.currentIndex := by assumption
    have := h (le_of_lt hgt)
    omega
  · exact h

theorem playFromHistory_inv (src : String) (s : AppState) (h : IndexInvariant s) :
    IndexInvariant (playFromHistory src s) := by
  unfold playFromHistory
  dsimp only
  split
  · exact h
  · split
    · intro _
      dsimp only
      rcases jsIndexOf_bounds src s.youtubeQueue with hneg | ⟨hlo, hhi⟩
      · exact absurd hneg (by assumption)
      · exact hhi
    · intro _
      dsimp only
      simp only [List.length_append, List.length_cons, List.length_nil]
      omega

/-! ## Claim theorems -/

/-- C2: every inbound player-bridge message whose origin is not in the fixed
allow-list — even a well-formed ended-event — leaves all controller state
unchanged (both the raw handler and the full reactive step), so the
post-handler state is independent of such a message's content. -/
theorem c2_cross_origin_messages_dropped (origin : String) (d : MsgData) (s : AppState)
    (h : isValidYoutubeOrigin origin = false) :
    handleMessage origin d s = s ∧ messageStep origin d s = s := by
  have h1 : handleMessage origin d s = s := by
    unfold handleMessage
    rw [h]
    simp
  refine ⟨h1, ?_⟩
  unfold messageStep
  rw [h1]
  simp

/-- Witness for C2: the spec's scenario, origin `https://evil.example` with
a well-formed ended-event payload against a playing two-entry queue. -/
theorem c2_cross_origin_messages_dropped_witness :
    isValidYoutubeOrigin "https://evil.example" = false ∧
    messageStep "https://evil.example" (MsgData.parsed (some "onStateChange") (some 0))
        { initState with youtubeQueue := ["a", "b"], currentIndex := 0, isYoutubePlaying := true }
      = { initState with youtubeQueue := ["a", "b"], currentIndex := 0, isYoutubePlaying := true } :=
  ⟨by decide,
   (c2_cross_origin_messages_dropped "https://evil.example"
      (MsgData.parsed (some "onStateChange") (some 0))
      { initState with youtubeQueue := ["a", "b"], currentIndex := 0, isYoutubePlaying := true }
      (by decide)).2⟩

/-- Counterexample to C3 as stated: from the initial state, a single inbound
chat video-state update carrying a one-entry queue and `index = 1` is a
reachable transition (`onVideoStateChange`, which checks only `index ≥ 0`),
yet it leaves `currentIndex = 1 ≥ 0` with `queue.length = 1`, violating
`currentIndex < queue.length`. -/
theorem c3_counterexample :
    (onVideoStateChange
        { videoUrl := none, playbackState := none,
          queue := some ["https://youtu.be/dQw4w9WgXcQ"], index := some 1 }
        initState).currentIndex = 1 ∧
    (onVideoStateChange
        { videoUrl := none, playbackState := none,
          queue := some ["https://youtu.be/dQw4w9WgXcQ"], index := some 1 }
        initState).youtubeQueue.length = 1 ∧
    ¬ ((onVideoStateChange
        { videoUrl := none, playbackState := none,
          queue := some ["https://youtu.be/dQw4w9WgXcQ"], index := some 1 }
        initState).currentIndex
      < ((onVideoStateChange
        { videoUrl := none, playbackState := none,
          queue := some ["https://youtu.be/dQw4w9WgXcQ"], index := some 1 }
        initState).youtubeQueue.length : Int)) := by
  decide

/-- C3 (amended): in every state reachable from the initial state by
enqueue, advance, retreat, select-from-history and player-bridge messages,
`currentIndex ≥ 0` implies `currentIndex < queue.length`; inbound chat
video-state updates preserve the invariant only under the proviso that the
applied update leaves the index within the bounds of the resulting queue
(the handler checks `index ≥ 0` but never the queue length, as the
counterexample shows). -/
theorem c3_index_invariant_amended (s : AppState) (hs : Reach s) : IndexInvariant s := by
  induction hs with
  | init =>
      intro hge
      exact absurd hge (by decide)
  | enqueue url hs ih => exact addToQueue_inv url _ ih
  | advance hs ih => exact handleNext_inv _ ih
  | retreat hs ih => exact handlePrevious_inv _ ih
  | history src hs ih => exact playFromHistory_inv src _ ih
  | player origin d hs ih => exact messageStep_inv origin d _ ih
  | chatUpdate u hs hok ih => exact hok

/-- Witness for C3 (amended): after enqueueing one valid URL from the
initial state, the selected index 0 is within the one-entry queue. -/
theorem c3_index_invariant_amended_witness :
    (addToQueue "https://youtu.be/dQw4w9WgXcQ" initState).currentIndex
      < ((addToQueue "https://youtu.be/dQw4w9WgXcQ" initState).youtubeQueue.length : Int) :=
  c3_index_invariant_amended _ (Reach.enqueue "https://youtu.be/dQw4w9WgXcQ" Reach.init)
    (by decide)

/-- C8: from any state with `currentIndex ≥ 0`, advancing — by `handleNext`
or by the player's ended signal — increments `currentIndex` and ends with
`isPlaying = true` when `currentIndex + 1 < queue.length`, and otherwise
clears `isPlaying` and leaves `currentIndex` unchanged: no wraparound, no
out-of-range index. -/
theorem c8_advance_bounds (s : AppState) (h0 : 0 ≤ s.currentIndex) :
    (s.currentIndex + 1 < (s.youtubeQueue.length : Int) →
      (handleNext s).currentIndex = s.currentIndex + 1 ∧
      (handleNext s).isYoutubePlaying = true ∧
      (endedSignal s).currentIndex = s.currentIndex + 1 ∧
      (endedSignal s).isYoutubePlaying = true) ∧
    (¬ s.currentIndex + 1 < (s.youtubeQueue.length : Int) →
      (handleNext s).currentIndex = s.currentIndex ∧
      (handleNext s).isYoutubePlaying = false ∧
      (endedSignal s).currentIndex = s.currentIndex ∧
      (endedSignal s).isYoutubePlaying = false) := by
  have horig : isValidYoutubeOrigin "https://www.youtube.com" = true := by decide
  constructor
  · intro hlt
    have hnext : handleNext s
        = { s with currentIndex := s.currentIndex + 1, isYoutubePlaying := true } := by
      unfold handleNext
      rw [if_pos hlt]
    have hmsg : handleMessage "https://www.youtube.com"
          (MsgData.parsed (some "onStateChange") (some 0)) s
        = { s with currentIndex := s.currentIndex + 1 } := by
      unfold handleMessage
      rw [horig]
      dsimp only
      rw [if_pos rfl, if_pos ⟨rfl, rfl⟩, if_pos hlt]
    have hended : endedSignal s
        = playQueueEffect { s with currentIndex := s.currentIndex + 1 } := by
      unfold endedSignal messageStep
      rw [hmsg]
      dsimp only
      rw [if_pos (Or.inl (by omega))]
    have heff : playQueueEffect { s with currentIndex := s.currentIndex + 1 }
        = { s with currentIndex := s.currentIndex + 1,
                   youtubeUrl := s.youtubeQueue.getD (s.currentIndex + 1).toNat "",
                   isYoutubePlaying := true } := by
      unfold playQueueEffect
      rw [if_pos ⟨by dsimp only; omega, by dsimp only; omega⟩]
    rw [hnext, hended, heff]
    exact ⟨rfl, rfl, rfl, rfl⟩
  · intro hlt
    have hnext : handleNext s = { s with isYoutubePlaying := false } := by
      unfold handleNext
      rw [if_neg hlt]
    have hmsg : handleMessage "https://www.youtube.com"
          (MsgData.parsed (some "onStateChange") (some 0)) s
        = { s with isYoutubePlaying := false } := by
      unfold handleMessage
      rw [horig]
      dsimp only
      rw [if_pos rfl, if_pos ⟨rfl, rfl⟩, if_neg hlt]
    have hended : endedSignal s = { s with isYoutubePlaying := false } := by
      unfold endedSignal messageStep
      rw [hmsg]
      dsimp only
      rw [if_neg (by push_neg; exact ⟨rfl, rfl⟩)]
    rw [hnext, hended]
    exact ⟨rfl, rfl, rfl, rfl⟩

/-- Witness for C8: a two-entry queue at index 0 (not the last index)
advances to index 1 and is playing afterwards, for both kinds of advance. -/
theorem c8_advance_bounds_witness :
    (0 : Int) ≤ ({ initState with youtubeQueue := ["a", "b"], currentIndex := 0 } : AppState).currentIndex ∧
    (handleNext { initState with youtubeQueue := ["a", "b"], currentIndex := 0 }).currentIndex = 1 ∧
    (endedSignal { initState with youtubeQueue := ["a", "b"], currentIndex := 0 }).currentIndex = 1 ∧
    (endedSignal { initState with youtubeQueue := ["a", "b"], currentIndex := 0 }).isYoutubePlaying = true := by
  have h := (c8_advance_bounds
    { initState with youtubeQueue := ["a", "b"], currentIndex := 0 } (by decide)).1 (by decide)
  refine ⟨by decide, ?_, ?_, h.2.2.2⟩
  · rw [h.1]; decide
  · rw [h.2.2.1]; decide

theorem endWatchSession_active (now start : Nat) (s : AchState)
    (hss : s.watchSessionStart = some start) (hstart : start ≠ 0) :
    endWatchSession now s =
      { stats := if 0 < (now - start) / 1000 then
            { s.stats with sessions_played := s.stats.sessions_played + 1 }
          else s.stats,
        watchSessionStart := none } := by
  unfold endWatchSession
  rw [hss]
  have htr : truthyTime (some start) = true := by simp [truthyTime, hstart]
  rw [htr]
  rfl

/-- C1: starting a watch session at `t0` (from the idle state), ticking the
1-second timer at times `ts` (each at least one second after the start) and
then closing at `tend` yields: `watch_time` increased by exactly the number
of ticks (1 per tick); the closing transition adds nothing further to
`watch_time` (no double counting of the session duration); and
`sessions_played` is incremented by exactly 1 if and only if the session
duration at close is non-zero — in particular whenever at least one tick
occurred before the close. -/
theorem c1_watch_session_accrual (s0 : AchState) (t0 tend : Nat) (ts : List Nat)
    (h0 : s0.watchSessionStart = none) (ht0 : t0 ≠ 0)
    (hts : ∀ t ∈ ts, t0 + 1000 ≤ t) (hend : ∀ t ∈ ts, t ≤ tend) :
    (ts.foldl (fun acc t => tickStep t acc) (startWatchSession t0 s0)).stats.watch_time
      = s0.stats.watch_time + ts.length ∧
    (endWatchSession tend (ts.foldl (fun acc t => tickStep t acc)
        (startWatchSession t0 s0))).stats.watch_time
      = (ts.foldl (fun acc t => tickStep t acc) (startWatchSession t0 s0)).stats.watch_time ∧
    (endWatchSession tend (ts.foldl (fun acc t => tickStep t acc)
        (startWatchSession t0 s0))).stats.sessions_played
      = (if 0 < (tend - t0) / 1000 then s0.stats.sessions_played + 1
         else s0.stats.sessions_played) ∧
    (ts ≠ [] → (endWatchSession tend (ts.foldl (fun acc t => tickStep t acc)
        (startWatchSession t0 s0))).stats.sessions_played
      = s0.stats.sessions_played + 1) := by
  have hstart : startWatchSession t0 s0 = { s0 with watchSessionStart := some t0 } := by
    unfold startWatchSession
    rw [h0]
    rfl
  rw [hstart]
  obtain ⟨hss, hwt, hsp⟩ :=
    tickFold t0 ht0 ts { s0 with watchSessionStart := some t0 } rfl hts
  have hendEq := endWatchSession_active tend t0
    (ts.foldl (fun acc t => tickStep t acc) { s0 with watchSessionStart := some t0 }) hss ht0
  rw [hendEq]
  refine ⟨hwt, ?_, ?_, ?_⟩
  · dsimp only
    split <;> rfl
  · dsimp only
    split <;> rw [hsp]
  · intro hne
    obtain ⟨t, ht⟩ := List.exists_mem_of_ne_nil ts hne
    have hdur : 0 < (tend - t0) / 1000 :=
      Nat.div_pos (by have h1 := hts t ht; have h2 := hend t ht; omega) (by norm_num)
    dsimp only
    rw [if_pos hdur, hsp]

/-- Witness for C1: from zero stats, start at 5000 ms, tick at 6000, 7000
and 8500 ms, close at 9000 ms: `watch_time = 3`, `sessions_played = 1`. -/
theorem c1_watch_session_accrual_witness :
    ([6000, 7000, 8500].foldl (fun acc t => tickStep t acc)
        (startWatchSession 5000 ⟨zeroStats, none⟩)).stats.watch_time = 3 ∧
    (endWatchSession 9000 ([6000, 7000, 8500].foldl (fun acc t => tickStep t acc)
        (startWatchSession 5000 ⟨zeroStats, none⟩))).stats.watch_time = 3 ∧
    (endWatchSession 9000 ([6000, 7000, 8500].foldl (fun acc t => tickStep t acc)
        (startWatchSession 5000 ⟨zeroStats, none⟩))).stats.sessions_played = 1 := by
  have h := c1_watch_session_accrual ⟨zeroStats, none⟩ 5000 9000 [6000, 7000, 8500]
    rfl (by decide) (by decide) (by decide)
  refine ⟨?_, ?_, ?_⟩
  · rw [h.1]; decide
  · rw [h.2.1, h.1]; decide
  · rw [h.2.2.2 (by decide)]; decide

/-- C4: achievement evaluation is idempotent — for every stat mapping and
unlocked set, re-running the evaluation on its own output adds nothing —
and in particular two consecutive evaluations after `watch_time` crosses
3600 add achievement id 4 exactly once, not twice. -/
theorem c4_evaluation_idempotent :
    (∀ (s : Stats) (u : List Nat),
      checkAchievements s (checkAchievements s u) = checkAchievements s u) ∧
    4 ∈ checkAchievements { zeroStats with watch_time := 3600 } [] ∧
    List.count 4 (checkAchievements { zeroStats with watch_time := 3600 }
        (checkAchievements { zeroStats with watch_time := 3600 } [])) = 1 :=
  ⟨checkAchievements_idem, by decide, by decide⟩

/-- C5: achievement evaluation is monotone — when stat mapping `s`
dominates `s'` coordinate-wise, every id evaluation unlocks from `s'` (on
the same starting unlocked set) it also unlocks from `s`. -/
theorem c5_evaluation_monotone (s s' : Stats) (u : List Nat) (hdom : Dominates s s') :
    ∀ x ∈ checkAchievements s' u, x ∈ checkAchievements s u := by
  intro x hx
  rw [checkAchievements_foldl] at hx ⊢
  exact foldl_checkStep_mono hdom ACHIEVEMENT_DEFINITIONS u u (fun y hy => hy) x hx

/-- Witness for C5: one hour of watch time dominates zero stats, and the
ids unlocked from zero stats all remain unlocked from the larger mapping. -/
theorem c5_evaluation_monotone_witness :
    Dominates { zeroStats with watch_time := 3600 } zeroStats ∧
    (∀ x ∈ checkAchievements zeroStats [],
      x ∈ checkAchievements { zeroStats with watch_time := 3600 } []) ∧
    4 ∈ checkAchievements { zeroStats with watch_time := 3600 } [] :=
  ⟨by decide,
   c5_evaluation_monotone { zeroStats with watch_time := 3600 } zeroStats [] (by decide),
   by decide⟩

/-- C6: persistence round-trip — storing a value under a key and loading it
back with any validator the value satisfies returns the value itself, never
the default. -/
theorem c6_persistence_round_trip (st : Storage) (key : String)
    (v defaultValue : JsonValue) (validator : JsonValue → Bool)
    (hv : validator v = true) :
    safeLocalStorageGet key defaultValue validator
      (safeLocalStorageSet key v st) = v := by
  unfold safeLocalStorageGet safeLocalStorageSet
  simp [hv]

/-- Witness for C6: storing volume 1 under `"volume"` and loading it back
through the 0-to-1 range validator returns 1, not the `null` default. -/
theorem c6_persistence_round_trip_witness :
    (fun j => match j with
      | JsonValue.num n => decide (0 ≤ n ∧ n ≤ 1)
      | _ => false) (JsonValue.num 1) = true ∧
    safeLocalStorageGet "volume" JsonValue.null
      (fun j => match j with
        | JsonValue.num n => decide (0 ≤ n ∧ n ≤ 1)
        | _ => false)
      (safeLocalStorageSet "volume" (JsonValue.num 1) emptyStorage) = JsonValue.num 1 :=
  ⟨by decide,
   c6_persistence_round_trip emptyStorage "volume" (JsonValue.num 1) JsonValue.null _ (by decide)⟩

/-- Counterexample to C7 as stated, at two explicit inputs.  First, the
empty string fails URL-shape validation, yet `addToQueue` returns at
`if (!url) return` before ever reaching `setUrlError`, so no validation
error is surfaced and the initial state comes back entirely unchanged.
Second, the spec's own scenario: enqueueing a valid URL into the fresh
initial state leaves `videos_added = 0`, not 1 — `trackVideoAdded` and
`trackQueueSize` share one stale `stats` snapshot and the high-water
write (a plain-value `setStats`, last write wins) overwrites the
`videos_added` increment. -/
theorem c7_counterexample :
    isValidYoutubeUrl (sanitizeString "" MAX_MESSAGE_LENGTH) = false ∧
    addToQueue "" initState = initState ∧
    (addToQueue "" initState).urlError = "" ∧
    (addToQueue "https://youtu.be/dQw4w9WgXcQ" initState).stats.videos_added = 0 ∧
    (addToQueue "https://youtu.be/dQw4w9WgXcQ" initState).stats.max_queue_size = 1 :=
  ⟨by decide, rfl, rfl, by decide, by decide⟩

/-- C7 (amended): a NON-EMPTY locator failing URL-shape validation is
rejected with the inline validation error surfaced and everything else
unchanged, while the empty locator is rejected silently with no error
surfaced; a valid locator enqueued into an empty queue yields
queue = [sanitized locator], `currentIndex = 0`, `isPlaying = true`, and
`max_queue_size` raised to the high-water mark `max(previous, 1)` — but
`videos_added` increases by 1 ONLY when the high-water guard does not fire
(previous `max_queue_size ≥ 1`); when it fires (in particular from fresh
stats) the stale-closure overwrite loses the increment and `videos_added`
is unchanged.  Enqueueing into a non-empty queue appends without changing
`currentIndex` or `isPlaying`, with the same guard-dependent stat effect:
either `max_queue_size` rises to the new length with `videos_added`
unchanged, or `videos_added` increments with `max_queue_size` unchanged. -/
theorem c7_enqueue_contract (url : String) (s : AppState) :
    (url = "" → addToQueue url s = s) ∧
    (url ≠ "" → isValidYoutubeUrl (sanitizeString url MAX_MESSAGE_LENGTH) = false →
      addToQueue url s = { s with urlError := "Please enter a valid YouTube URL." }) ∧
    (url ≠ "" → isValidYoutubeUrl (sanitizeString url MAX_MESSAGE_LENGTH) = true →
      s.youtubeQueue = [] →
      (addToQueue url s).youtubeQueue = [sanitizeString url MAX_MESSAGE_LENGTH] ∧
      (addToQueue url s).currentIndex = 0 ∧
      (addToQueue url s).isYoutubePlaying = true ∧
      (addToQueue url s).stats.max_queue_size = max s.stats.max_queue_size 1 ∧
      (s.stats.max_queue_size = 0 →
        (addToQueue url s).stats.videos_added = s.stats.videos_added) ∧
      (s.stats.max_queue_size ≠ 0 →
        (addToQueue url s).stats.videos_added = s.stats.videos_added + 1)) ∧
    (url ≠ "" → isValidYoutubeUrl (sanitizeString url MAX_MESSAGE_LENGTH) = true →
      s.youtubeQueue ≠ [] →
      (addToQueue url s).youtubeQueue
        = s.youtubeQueue ++ [sanitizeString url MAX_MESSAGE_LENGTH] ∧
      (addToQueue url s).currentIndex = s.currentIndex ∧
      (addToQueue url s).isYoutubePlaying = s.isYoutubePlaying ∧
      ((s.youtubeQueue ++ [sanitizeString url MAX_MESSAGE_LENGTH]).length
          > s.stats.max_queue_size →
        (addToQueue url s).stats.videos_added = s.stats.videos_added ∧
        (addToQueue url s).stats.max_queue_size
          = (s.youtubeQueue ++ [sanitizeString url MAX_MESSAGE_LENGTH]).length) ∧
      (¬ (s.youtubeQueue ++ [sanitizeString url MAX_MESSAGE_LENGTH]).length
          > s.stats.max_queue_size →
        (addToQueue url s).stats.videos_added = s.stats.videos_added + 1 ∧
        (addToQueue url s).stats.max_queue_size = s.stats.max_queue_size)) := by
  refine ⟨?_, ?_, ?_, ?_⟩
  · intro he
    unfold addToQueue
    rw [if_pos he]
  · intro hne hval
    unfold addToQueue
    rw [if_neg hne]
    dsimp only
    rw [hval]
    simp
  · intro hne hval hq
    have hempty : addToQueue url s
        = { s with youtubeQueue := s.youtubeQueue ++ [sanitizeString url MAX_MESSAGE_LENGTH],
                   stats :=
                     if (s.youtubeQueue ++ [sanitizeString url MAX_MESSAGE_LENGTH]).length
                         > s.stats.max_queue_size then
                       { s.stats with max_queue_size :=
                           (s.youtubeQueue ++ [sanitizeString url MAX_MESSAGE_LENGTH]).length }
                     else trackVideoAdded s.stats,
                   urlError := "", currentIndex := 0, isYoutubePlaying := true,
                   youtubeInput := "" } := by
      unfold addToQueue
      rw [if_neg hne]
      dsimp only
      rw [hval]
      simp only [not_true, if_neg, if_false]
      rw [if_pos ⟨by rw [hq]; rfl, by simp⟩]
    rw [hempty, hq]
    simp only [List.nil_append, List.length_cons, List.length_nil]
    refine ⟨by trivial, by trivial, by trivial, ?_, ?_, ?_⟩
    · dsimp only
      split
      · dsimp only
        omega
      · unfold trackVideoAdded
        dsimp only
        omega
    · intro hm
      rw [hm, if_pos (by norm_num)]
    · intro hm
      rw [if_neg (by omega)]
      unfold trackVideoAdded
      rfl
  · intro hne hval hq
    have happend : addToQueue url s
        = { s with youtubeQueue := s.youtubeQueue ++ [sanitizeString url MAX_MESSAGE_LENGTH],
                   stats :=
                     if (s.youtubeQueue ++ [sanitizeString url MAX_MESSAGE_LENGTH]).length
                         > s.stats.max_queue_size then
                       { s.stats with max_queue_size :=
                           (s.youtubeQueue ++ [sanitizeString url MAX_MESSAGE_LENGTH]).length }
                     else trackVideoAdded s.stats,
                   urlError := "", youtubeInput := "" } := by
      unfold addToQueue
      rw [if_neg hne]
      dsimp only
      rw [hval]
      simp only [not_true, if_neg, if_false]
      rw [if_neg (fun hc => hq (List.length_eq_zero.mp hc.1))]
    rw [happend]
    refine ⟨rfl, rfl, rfl, ?_, ?_⟩
    · intro hgt
      dsimp only
      rw [if_pos hgt]
      exact ⟨rfl, rfl⟩
    · intro hle
      dsimp only
      rw [if_neg hle]
      unfold trackVideoAdded
      exact ⟨rfl, rfl⟩

/-- Witness for C7 (amended): the spec's scenario — enqueueing
`https://youtu.be/dQw4w9WgXcQ` into the fresh initial state gives a
one-entry queue, index 0, playing, `max_queue_size = 1`, and (because the
high-water guard fires from fresh stats and its save overwrites the
`videos_added` one) `videos_added` still 0. -/
theorem c7_enqueue_contract_witness :
    isValidYoutubeUrl (sanitizeString "https://youtu.be/dQw4w9WgXcQ" MAX_MESSAGE_LENGTH) = true ∧
    initState.stats.max_queue_size = 0 ∧
    (addToQueue "https://youtu.be/dQw4w9WgXcQ" initState).youtubeQueue
      = ["https://youtu.be/dQw4w9WgXcQ"] ∧
    (addToQueue "https://youtu.be/dQw4w9WgXcQ" initState).currentIndex = 0 ∧
    (addToQueue "https://youtu.be/dQw4w9WgXcQ" initState).isYoutubePlaying = true ∧
    (addToQueue "https://youtu.be/dQw4w9WgXcQ" initState).stats.videos_added = 0 ∧
    (addToQueue "https://youtu.be/dQw4w9WgXcQ" initState).stats.max_queue_size = 1 := by
  have h := (c7_enqueue_contract "https://youtu.be/dQw4w9WgXcQ" initState).2.2.1
    (by decide) (by decide) rfl
  refine ⟨by decide, rfl, ?_, h.2.1, h.2.2.1, ?_, ?_⟩
  · rw [h.1]; decide
  · rw [h.2.2.2.2.1 rfl]; rfl
  · rw [h.2.2.2.1]; decide

/-- C9: the numeric clamp helper returns the configured minimum on
unparsable input and otherwise the parsed value clamped into `[lo, hi]`;
with bounds [0, 1], input `"1.5"` yields 1 and `"abc"` yields 0. -/
theorem c9_validate_number (value : String) (lo hi : Rat) (h : lo ≤ hi) :
    (jsParseFloat value = none → validateNumber value lo hi = lo) ∧
    (∀ x, jsParseFloat value = some x →
      validateNumber value lo hi = jsMax lo (jsMin hi x) ∧
      lo ≤ validateNumber value lo hi ∧
      validateNumber value lo hi ≤ hi) ∧
    validateNumber "1.5" 0 1 = 1 ∧
    validateNumber "abc" 0 1 = 0 := by
  refine ⟨?_, ?_, by decide, by decide⟩
  · intro hn
    unfold validateNumber
    rw [hn]
  · intro x hx
    unfold validateNumber
    rw [hx]
    dsimp only
    have hminle : jsMin hi x ≤ hi := by
      unfold jsMin
      split
      · exact le_refl hi
      · exact le_of_not_le (by assumption)
    refine ⟨rfl, ?_, ?_⟩
    · unfold jsMax
      split
      · assumption
      · exact le_refl lo
    · unfold jsMax
      split
      · exact hminle
      · exact h

/-- Witness for C9: the spec's scenario with bounds 0 ≤ 1. -/
theorem c9_validate_number_witness :
    (0 : Rat) ≤ 1 ∧ validateNumber "1.5" 0 1 = 1 ∧ validateNumber "abc" 0 1 = 0 :=
  ⟨by norm_num,
   (c9_validate_number "1.5" 0 1 (by norm_num)).2.2.1,
   (c9_validate_number "abc" 0 1 (by norm_num)).2.2.2⟩

/-- Counterexample to C10 as stated: one completed connection flow does
NOT increment `discord_connections` at least twice.  Clicking connect from
fresh stats persists `discord_connections = 1`; the completed redirect's
tracking call then runs in the fresh mount over the initial all-zero stats
(the localStorage load is only queued), so it persists
`discord_connections = 1` again — the whole flow nets 1, not 2. -/
theorem c10_counterexample :
    (handleDiscordConnect zeroStats).discord_connections = 1 ∧
    (urlParamsMountStats (handleDiscordConnect zeroStats)
        (some "user") (some "avatarhash") (some "42")).discord_connections = 1 :=
  ⟨rfl, rfl⟩

/-- C10 (amended): clicking the Discord connect button increments
`discord_connections` by exactly 1, unconditionally and before any OAuth
token exchange occurs or succeeds, and that alone already makes the "First
Connection" achievement (id 1, target 1) unlockable; but the redirect-time
tracking call of a completed flow runs over the mount-initial zero stats
(its `trackDiscordConnection` closure predates the queued localStorage
load), so whatever was stored, a completed OAuth redirect persists
`discord_connections = 1` — the flow does NOT add a second increment on top
of the click-time one. -/
theorem c10_discord_attempt_only (st stored : Stats)
    (username avatar userId : Option String)
    (hu : username.isSome = true) (ha : avatar.isSome = true)
    (hi : userId.isSome = true) :
    (handleDiscordConnect st).discord_connections = st.discord_connections + 1 ∧
    1 ∈ checkAchievements (handleDiscordConnect zeroStats) [] ∧
    (urlParamsMountStats stored username avatar userId).discord_connections = 1 := by
  refine ⟨rfl, by decide, ?_⟩
  unfold urlParamsMountStats
  rw [if_pos ⟨hu, ha, hi⟩]
  rfl

/-- Witness for C10 (amended): the concrete completed flow from fresh
stats — the click takes `discord_connections` to 1 and unlocks id 1; the
completed redirect leaves it at 1. -/
theorem c10_discord_attempt_only_witness :
    (handleDiscordConnect zeroStats).discord_connections = 1 ∧
    1 ∈ checkAchievements (handleDiscordConnect zeroStats) [] ∧
    (urlParamsMountStats (handleDiscordConnect zeroStats)
        (some "user") (some "avatarhash") (some "42")).discord_connections = 1 := by
  have h := c10_discord_attempt_only zeroStats (handleDiscordConnect zeroStats)
    (some "user") (some "avatarhash") (some "42") rfl rfl rfl
  exact ⟨by rw [h.1]; rfl, h.2.1, h.2.2⟩
